import Mathlib

/-!
Verification development for the `table-control` repository.

Shallow embedding of the parts of the code the claims concern:

* `core/utils.py` — `get_resource_name` (VISA resource-name normalization),
* `plugins/legacy_socket.py` — `SocketServer.handle_message` (legacy TCP grammar),
* `plugins/scpi_socket.py` — `SocketServer.handle_message` (SCPI grammar, error stack),
* `gui/controller.py` — command envelopes and the priority queue, the table context
  (`raise_on_abort`, `raise_on_calibration_error`, `perform_motion`), the motion
  commands (`MoveRelativeCommand`, `MoveAbsoluteCommand`) and the worker's
  exception handling (`on_exception`),
* `core/resource.py` — `Resource.__exit__`.

Python strings are modelled as `List Char`, Python floats as `ℚ` (IEEE special
values and rounding are out of scope; none of the claims depend on them),
Python ints as `Int`.  Fallible Python code is modelled with `Option`, and an
exception escaping a handler is modelled explicitly in the result type.
-/

namespace TableControl

/-! ## Python string primitives used by the code -/

/-- Python `str.split(sep)` for a one-character separator: splits at every
occurrence of `sep`, keeping empty segments (so the result is never empty). -/
def pySplitChar (sep : Char) : List Char → List (List Char)
  | [] => [[]]
  | c :: cs =>
    let r := pySplitChar sep cs
    if c = sep then [] :: r
    else (c :: r.headD []) :: r.tail

/-- Python `str.strip()` (whitespace at both ends removed). -/
def pyStrip (l : List Char) : List Char :=
  ((l.dropWhile Char.isWhitespace).reverse.dropWhile Char.isWhitespace).reverse

/-- Python `str.split(maxsplit=1)` with no separator argument: leading
whitespace skipped, first whitespace-delimited token, remainder with the
separating whitespace run consumed; an all-whitespace remainder is dropped,
an all-whitespace input yields `[]`. -/
def pySplitMax1 (l : List Char) : List (List Char) :=
  match l.dropWhile Char.isWhitespace with
  | [] => []
  | c :: cs =>
    let tok := c :: cs.takeWhile (fun x => !x.isWhitespace)
    let rest := (cs.dropWhile (fun x => !x.isWhitespace)).dropWhile Char.isWhitespace
    if rest.isEmpty then [tok] else [tok, rest]

/-- Digits of a nonnegative integer literal. -/
def digitsVal (l : List Char) : ℕ :=
  l.foldl (fun acc c => 10 * acc + (c.toNat - '0'.toNat)) 0

/-- Python `int(s)`: optional surrounding whitespace, optional sign, a nonempty
run of decimal digits.  (Digit-group underscores are not modelled; no claim
uses them.) -/
def parsePyInt (l : List Char) : Option Int :=
  let s := pyStrip l
  let core : List Char → Option ℕ := fun d =>
    if d ≠ [] ∧ d.all Char.isDigit then some (digitsVal d) else none
  match s with
  | '+' :: rest => (core rest).map Int.ofNat
  | '-' :: rest => (core rest).map (fun n => -(n : Int))
  | _ => (core s).map Int.ofNat

/-- Unsigned decimal body of a Python float literal: `digits`, `digits.`,
`digits.digits` or `.digits`, with an optional exponent part. -/
def parseFloatBody (l : List Char) : Option ℚ :=
  let intPart := l.takeWhile Char.isDigit
  let rest := l.dropWhile Char.isDigit
  let mantissa : Option (ℚ × List Char) :=
    match rest with
    | '.' :: r =>
      let frac := r.takeWhile Char.isDigit
      let r2 := r.dropWhile Char.isDigit
      if intPart.isEmpty ∧ frac.isEmpty then none
      else some ((digitsVal intPart : ℚ) + (digitsVal frac : ℚ) / (10 : ℚ) ^ frac.length, r2)
    | r => if intPart.isEmpty then none else some ((digitsVal intPart : ℚ), r)
  match mantissa with
  | none => none
  | some (m, r) =>
    match r with
    | [] => some m
    | e :: er =>
      if e = 'e' ∨ e = 'E' then
        match parsePyInt er with
        | some k =>
          if er.all (fun c => !c.isWhitespace) then some (m * (10 : ℚ) ^ (k : ℤ)) else none
        | none => none
      else none

/-- Python `float(s)`: optional surrounding whitespace, optional sign, then a
decimal body with optional exponent.  `inf`/`nan` are not modelled (floating
point special values are out of scope for every claim). -/
def parsePyFloat (l : List Char) : Option ℚ :=
  match pyStrip l with
  | '+' :: rest => parseFloatBody rest
  | '-' :: rest => (parseFloatBody rest).map Neg.neg
  | s => parseFloatBody s

/-! ## `core/utils.py` — `get_resource_name`

Each of the five `re.match` patterns of the source is simple enough to be
deterministic (none of `.`/`:`/separator characters are in `\d`/`\w`), so each
is embedded as a first-match-wins structural matcher on the character list. -/

/-- `^(\d+)$` -/
def matchDigits (l : List Char) : Bool :=
  !l.isEmpty && l.all Char.isDigit

/-- Strips a literal character prefix, or fails. -/
def stripLit : List Char → List Char → Option (List Char)
  | [], l => some l
  | p :: ps, c :: cs => if c = p then stripLit ps cs else none
  | _ :: _, [] => none

/-- `^COM(\d+)$`, returning the digit group. -/
def matchCOM (l : List Char) : Option (List Char) :=
  match stripLit "COM".data l with
  | some rest => if matchDigits rest then some rest else none
  | none => none

/-- `^ASRL(\d+)$`, returning the digit group. -/
def matchASRL (l : List Char) : Option (List Char) :=
  match stripLit "ASRL".data l with
  | some rest => if matchDigits rest then some rest else none
  | none => none

/-- Consumes `\d+` followed by the literal `sep`, returning the digit group and
the remainder after `sep`. -/
def takeDigitsThen (sep : Char) (l : List Char) : Option (List Char × List Char) :=
  let a := l.takeWhile Char.isDigit
  match l.dropWhile Char.isDigit with
  | c :: cs => if c = sep ∧ !a.isEmpty then some (a, cs) else none
  | [] => none

/-- `^(\d+\.\d+\.\d+\.\d+)\:(\d+)$`, returning (host group, port group). -/
def matchIPv4Port (l : List Char) : Option (List Char × List Char) :=
  match takeDigitsThen '.' l with
  | none => none
  | some (a, r1) =>
    match takeDigitsThen '.' r1 with
    | none => none
    | some (b, r2) =>
      match takeDigitsThen '.' r2 with
      | none => none
      | some (c, r3) =>
        match takeDigitsThen ':' r3 with
        | none => none
        | some (d, r4) =>
          if matchDigits r4 then
            some (a ++ '.' :: b ++ '.' :: c ++ '.' :: d, r4)
          else none

/-- ASCII model of the regex word class `\w`. -/
def isWordChar (c : Char) : Bool :=
  c.isAlphanum || c = '_'

/-- `^(\w+)\:(\d+)$`, returning (host group, port group). -/
def matchWordPort (l : List Char) : Option (List Char × List Char) :=
  let w := l.takeWhile isWordChar
  match l.dropWhile isWordChar with
  | c :: cs => if c = ':' ∧ !w.isEmpty ∧ matchDigits cs then some (w, cs) else none
  | [] => none

/-- `get_resource_name` on character lists, pattern order as in the source. -/
def getResourceNameL (l : List Char) : List Char :=
  if matchDigits l then "GPIB0::".data ++ l ++ "::INSTR".data
  else
    match matchCOM l with
    | some d => "ASRL".data ++ d ++ "::INSTR".data
    | none =>
      match matchASRL l with
      | some d => "ASRL".data ++ d ++ "::INSTR".data
      | none =>
        match matchIPv4Port l with
        | some (h, p) => "TCPIP0::".data ++ h ++ "::".data ++ p ++ "::SOCKET".data
        | none =>
          match matchWordPort l with
          | some (h, p) => "TCPIP0::".data ++ h ++ "::".data ++ p ++ "::SOCKET".data
          | none => l

/-- `get_resource_name` from `core/utils.py`. -/
def get_resource_name (s : String) : String :=
  ⟨getResourceNameL s.data⟩


/-! ## The legacy socket server (`plugins/legacy_socket.py`) -/

/-- A call into the `TableController` public API made by a socket server.
Each of these merely enqueues a command (`put_command`) or sets the abort
flag, and never raises. -/
inductive TableCall
  | moveRelative (x y z : ℚ)
  | moveAbsolute (x y z : ℚ)
  | abortTable
  deriving DecidableEq, Repr

/-- Python list element assignment `l[i] = v` on a fresh 3-element list
`[0.0, 0.0, 0.0]`, with Python's negative-index wrap-around; `none` models
`IndexError`. -/
def pyListSet3 (i : Int) (x : ℚ) : Option (ℚ × ℚ × ℚ) :=
  if i = 0 ∨ i = -3 then some (x, 0, 0)
  else if i = 1 ∨ i = -2 then some (0, x, 0)
  else if i = 2 ∨ i = -1 then some (0, 0, x)
  else none

/-- Model of Python `f"{v:.6f}"` on the rational model of floats: round half
to even at the sixth decimal, then render sign, integer part and six decimals.
(Binary-double rounding artefacts are out of scope; no claim depends on them.) -/
def round6 (q : ℚ) : Int :=
  let s := q * 1000000
  let f := ⌊s⌋
  if s - f < 1 / 2 then f
  else if 1 / 2 < s - f then f + 1
  else if f % 2 = 0 then f else f + 1

/-- Render a rational with exactly six decimal places (see `round6`). -/
def format6 (q : ℚ) : List Char :=
  let n := round6 q
  let a := n.natAbs
  let frac := (toString (a % 1000000)).data
  (if n < 0 then ['-'] else []) ++ (toString (a / 1000000)).data ++
    '.' :: (List.replicate (6 - frac.length) '0' ++ frac)

/-- Dispatch on the legacy command token (the text before the first `=` of the
stripped message), in source order. -/
inductive LegacyCmd
  | po | mr | ma | help | other
  deriving DecidableEq, Repr

def legacyCommandOf (command : List Char) : LegacyCmd :=
  if command = "PO?".data then .po
  else if command = "MR".data then .mr
  else if command = "MA".data then .ma
  else if command = "???".data then .help
  else .other

/-- Result of the legacy `handle_message`: the response line and the calls made
into the table controller. -/
structure LegacyResult where
  response : List Char
  calls : List TableCall
  deriving DecidableEq, Repr

/-- `SocketServer.handle_message` of `plugins/legacy_socket.py`.  `pos` and
`moving` are the table-controller state read by `PO?` (locked snapshot reads
that cannot raise).  In the `MR` branch every exception of the first `try`
block (`ValueError` from the splits or conversions, `IndexError` from the
index assignment) yields the same "Command not valid !" reply, so the model
collapses them; `move_relative`/`move_absolute` only enqueue and cannot raise,
so the success replies are "Done ...".
The `MR=DELTA,AXIS` branch of the legacy `handle_message`. -/
def legacyMR (message : List Char) : LegacyResult :=
  match pySplitChar '=' message with
  | [_, args] =>
    match pySplitChar ',' args with
    | [delta, axis] =>
      match parsePyInt axis, parsePyFloat delta with
      | some n, some dv =>
        match pyListSet3 (n - 1) dv with
        | some (x, y, z) => ⟨"Done ...".data, [.moveRelative x y z]⟩
        | none => ⟨"Command not valid !".data, []⟩
      | _, _ => ⟨"Command not valid !".data, []⟩
    | _ => ⟨"Command not valid !".data, []⟩
  | _ => ⟨"Command not valid !".data, []⟩

/-- The `MA=X,Y,Z` branch of the legacy `handle_message`: split failures come
from the first `try` block ("Command not valid !"); a non-float field raises in
the second `try` block while evaluating the arguments of `move_absolute`
("Error !", and no call is made). -/
def legacyMA (message : List Char) : LegacyResult :=
  match pySplitChar '=' message with
  | [_, args] =>
    match pySplitChar ',' args with
    | [xs, ys, zs] =>
      match parsePyFloat xs, parsePyFloat ys, parsePyFloat zs with
      | some x, some y, some z => ⟨"Done ...".data, [.moveAbsolute x y z]⟩
      | _, _, _ => ⟨"Error !".data, []⟩
    | _ => ⟨"Command not valid !".data, []⟩
  | _ => ⟨"Command not valid !".data, []⟩

def legacyHandleMessage (pos : ℚ × ℚ × ℚ) (moving : Bool) (message : List Char) :
    LegacyResult :=
  let command := (pySplitChar '=' (pyStrip message)).headD []
  match legacyCommandOf command with
  | .po =>
    ⟨format6 pos.1 ++ ',' :: format6 pos.2.1 ++ ',' :: format6 pos.2.2 ++
      ',' :: (if moving then ['1'] else ['0']), []⟩
  | .mr => legacyMR message
  | .ma => legacyMA message
  | .help =>
    ⟨("Command list:\nPO? - Get Table Position and Status\n" ++
      "MA=x.xxx,x.xxx,x.xxx - Move absolute [X,Y,Z]\n" ++
      "MR=x.xxx,x - Move relative [StepWidth,Axis]\n??? - This command").data, []⟩
  | .other => ⟨"Command not valid !".data, []⟩


/-! ## The SCPI socket server (`plugins/scpi_socket.py`) -/

/-- Snapshot of the `TableController` state the SCPI server reads through the
accessor methods `position()`, `calibration()` and `is_moving()` (locked
snapshot reads that cannot raise). -/
structure TableModel where
  position : ℚ × ℚ × ℚ
  calibration : ℕ × ℕ × ℕ
  moving : Bool

/-- All strings generated by concatenating one choice from each part: the
finite language of one of the anchored regexes of `scpi_socket.py` (each
regex is a concatenation of literal pieces and optional groups). -/
def regexAlts (parts : List (List String)) : List String :=
  parts.foldl (fun acc ps => acc.flatMap (fun a => ps.map (fun p => a ++ p))) [""]

/-- `\:?` -/
def colonOpt : List String := ["", ":"]

/-- `^\:?pos(ition)?(\:stat(e)?)?\?$` -/
def posAlts : List String :=
  regexAlts [colonOpt, ["pos", "position"], ["", ":stat", ":state"], ["?"]]

/-- `^\:?cal(ibration)?(\:stat(e)?)?\?$` -/
def calAlts : List String :=
  regexAlts [colonOpt, ["cal", "calibration"], ["", ":stat", ":state"], ["?"]]

/-- `^\:?move(\:stat(e)?)?\?$` -/
def moveStateAlts : List String :=
  regexAlts [colonOpt, ["move"], ["", ":stat", ":state"], ["?"]]

/-- `^\:?move\:rel(ative)?$` -/
def moveRelAlts : List String := regexAlts [colonOpt, ["move:rel", "move:relative"]]

/-- `^\:?move\:abs(olute)?$` -/
def moveAbsAlts : List String := regexAlts [colonOpt, ["move:abs", "move:absolute"]]

/-- `^\:?zlim(it)?\:enab(le)?\?$` -/
def zlimEnabAlts : List String :=
  regexAlts [colonOpt, ["zlim", "zlimit"], [":enab", ":enable"], ["?"]]

/-- `^\:?zlim(it)?(\:val(ue)?)?\?$` -/
def zlimValAlts : List String :=
  regexAlts [colonOpt, ["zlim", "zlimit"], ["", ":val", ":value"], ["?"]]

/-- `^\:?move\:abort$` -/
def moveAbortAlts : List String := regexAlts [colonOpt, ["move:abort"]]

/-- `^\:?sys(t(em)?)?\:err(or)?\:coun(t)?\?$` -/
def errCountAlts : List String :=
  regexAlts [colonOpt, ["sys", "syst", "system"], [":err", ":error"], [":coun", ":count"], ["?"]]

/-- `^\:?sys(t(em)?)?\:err(or)?(\:next)?\?$` -/
def errNextAlts : List String :=
  regexAlts [colonOpt, ["sys", "syst", "system"], [":err", ":error"], ["", ":next"], ["?"]]

/-- The recognized SCPI commands, one per `re.match` branch of
`handle_message`, plus `invalid` for the fall-through. -/
inductive ScpiCmd
  | idn | cls | posQ | calQ | moveQ | moveRel | moveAbs | zlimEnabQ | zlimValQ
  | moveAbort | errCount | errNext | invalid
  deriving DecidableEq, Repr

/-- The `re.match` branch chain of `handle_message`, in source order, applied
to the lower-cased first token. -/
def scpiParseCommand (cmd : String) : ScpiCmd :=
  if cmd = "*idn?" then .idn
  else if cmd = "*cls" then .cls
  else if posAlts.contains cmd then .posQ
  else if calAlts.contains cmd then .calQ
  else if moveStateAlts.contains cmd then .moveQ
  else if moveRelAlts.contains cmd then .moveRel
  else if moveAbsAlts.contains cmd then .moveAbs
  else if zlimEnabAlts.contains cmd then .zlimEnabQ
  else if zlimValAlts.contains cmd then .zlimValQ
  else if moveAbortAlts.contains cmd then .moveAbort
  else if errCountAlts.contains cmd then .errCount
  else if errNextAlts.contains cmd then .errNext
  else .invalid

/-- Outcome of one `handle_message` call: a reply line, no reply (`None`), or
an exception escaping `handle_message` (it is then caught by
`handle_client`'s catch-all, which logs and closes the client connection). -/
inductive ScpiOutcome
  | reply (s : List Char)
  | silent
  | raised
  deriving DecidableEq, Repr

/-- Result of one SCPI `handle_message` call: outcome, the error stack after
the call, and the controller calls made. -/
structure ScpiResult where
  outcome : ScpiOutcome
  errorStack : List (ℕ × List Char)
  calls : List TableCall
  deriving DecidableEq, Repr

/-- `args.split(",")` into exactly three fields, each converted by `float`;
`none` models the exception caught by the `MOVE:REL`/`MOVE:ABS` branches. -/
def parse3Floats (args : List Char) : Option (ℚ × ℚ × ℚ) :=
  match pySplitChar ',' args with
  | [a, b, c] =>
    match parsePyFloat a, parsePyFloat b, parsePyFloat c with
    | some x, some y, some z => some (x, y, z)
    | _, _, _ => none
  | _ => none

/-- `SocketServer.handle_message` of `plugins/scpi_socket.py`.  `stack` is the
per-server FIFO error stack; `idn` abstracts the `f"APP_TITLE vAPP_VERSION"`
reply (those constants live in `table_control/gui/__init__.py`, which is not
among the provided sources).  The `ZLIMit` branches read
`self.table.z_limit_enabled` and `self.table.z_limit`; `TableController`
(`gui/controller.py`) defines no such attributes — its Z-limit state lives in
the private `_state` dataclass behind setter methods only — so both reads
raise `AttributeError`, modelled as `.raised`.  An all-whitespace message
makes `message.split()[0]` raise `IndexError`, also `.raised`. -/
def scpiHandleMessage (idn : List Char) (table : TableModel)
    (stack : List (ℕ × List Char)) (message : List Char) : ScpiResult :=
  match pySplitMax1 message with
  | [] => ⟨.raised, stack, []⟩
  | tok :: rest =>
    let cmd : String := ⟨tok.map Char.toLower⟩
    match scpiParseCommand cmd with
    | .idn => ⟨.reply idn, stack, []⟩
    | .cls => ⟨.silent, [], []⟩
    | .posQ =>
      ⟨.reply (format6 table.position.1 ++ ',' :: format6 table.position.2.1 ++
        ',' :: format6 table.position.2.2), stack, []⟩
    | .calQ =>
      ⟨.reply ((toString table.calibration.1).data ++ ',' ::
        ((toString table.calibration.2.1).data ++ ',' ::
          (toString table.calibration.2.2).data)), stack, []⟩
    | .moveQ => ⟨.reply (if table.moving then ['1'] else ['0']), stack, []⟩
    | .moveRel =>
      match rest with
      | [args] =>
        match parse3Floats args with
        | some (x, y, z) => ⟨.silent, stack, [.moveRelative x y z]⟩
        | none => ⟨.silent, stack ++ [(101, "invalid attributes".data)], []⟩
      | _ => ⟨.silent, stack ++ [(101, "invalid attributes".data)], []⟩
    | .moveAbs =>
      match rest with
      | [args] =>
        match parse3Floats args with
        | some (x, y, z) => ⟨.silent, stack, [.moveAbsolute x y z]⟩
        | none => ⟨.silent, stack ++ [(101, "invalid attributes".data)], []⟩
      | _ => ⟨.silent, stack ++ [(101, "invalid attributes".data)], []⟩
    | .zlimEnabQ => ⟨.raised, stack, []⟩
    | .zlimValQ => ⟨.raised, stack, []⟩
    | .moveAbort => ⟨.silent, stack, [.abortTable]⟩
    | .errCount => ⟨.reply (toString stack.length).data, stack, []⟩
    | .errNext =>
      match stack with
      | (code, msg) :: restStack =>
        ⟨.reply ((toString code).data ++ ',' :: '"' :: (msg ++ ['"'])), restStack, []⟩
      | [] => ⟨.reply "0,\"no error\"".data, stack, []⟩
    | .invalid => ⟨.silent, stack ++ [(100, "invalid command".data)], []⟩


/-! ## `gui/controller.py` — table context and motion commands

The worker thread executes one command at a time; the abort flag is the only
cross-thread input and is modelled as part of the state, constant during one
command execution.  `Driver.is_moving()` is an oracle for the physical
device: each motion call loads `movingPolls` from the head of a poll plan,
and the poll loop publishes one position update per `True` poll.  Wall-clock
timeouts (motion timeout, abort settle timeout) are not modelled; no claim
depends on them.  `CalibrateCommand`/`RangeMeasureCommand` share
`perform_motion` with the move commands and are not needed by any claim. -/

/-- Driver model: current position and how many further `is_moving()` polls
report `True`. -/
structure DriverModel where
  position : ℚ × ℚ × ℚ
  movingPolls : ℕ
  deriving DecidableEq, Repr

/-- Observable events of one command execution: Qt signals emitted by the
controller and calls into the `Driver`. -/
inductive Event
  | movementStarted
  | movementFinished
  | positionChanged (x y z : ℚ)
  | disconnectedSig
  | drvAbort
  | drvMoveRelative (x y z : ℚ)
  | drvMoveAbsolute (x y z : ℚ)
  deriving DecidableEq, Repr

/-- Exceptions raised inside command execution and classified by
`TableController.on_exception`. -/
inductive CtrlExc
  | abortRequest
  | calibrationError
  deriving DecidableEq, Repr

/-- Worker-side state during one `handle_context` iteration. -/
structure WorkerState where
  driver : DriverModel
  isMoving : Bool
  statePos : ℚ × ℚ × ℚ
  calibration : ℕ × ℕ × ℕ
  abortRequested : Bool
  pollPlan : List ℕ
  deriving DecidableEq, Repr

/-- `TableController.set_moving`: updates the locked state and emits
`movement_started`/`movement_finished` unconditionally. -/
def set_moving (s : WorkerState) (state : Bool) : WorkerState × List Event :=
  ({ s with isMoving := state },
   [if state then .movementStarted else .movementFinished])

/-- `TableContext.raise_on_abort`: when the abort flag is set, call
`Driver.abort()` (the device stops, so the settle-wait loop exits) and raise
`AbortRequest`. -/
def raise_on_abort (s : WorkerState) : WorkerState × List Event × Option CtrlExc :=
  if s.abortRequested then
    ({ s with driver := { s.driver with movingPolls := 0 } }, [.drvAbort], some .abortRequest)
  else (s, [], none)

/-- `TableContext.raise_on_calibration_error`: the first axis whose cached
calibration state differs from `0x3` aborts the driver and raises
`CalibrationError`. -/
def raise_on_calibration_error (s : WorkerState) :
    WorkerState × List Event × Option CtrlExc :=
  if s.calibration.1 ≠ 3 ∨ s.calibration.2.1 ≠ 3 ∨ s.calibration.2.2 ≠ 3 then
    ({ s with driver := { s.driver with movingPolls := 0 } }, [.drvAbort], some .calibrationError)
  else (s, [], none)

/-- One motion lambda handed to `perform_motion`. -/
inductive MotionCall
  | rel (x y z : ℚ)
  | abs (x y z : ℚ)
  deriving DecidableEq, Repr

/-- The driver `Event` a motion call produces. -/
def eventOf : MotionCall → Event
  | .rel x y z => .drvMoveRelative x y z
  | .abs x y z => .drvMoveAbsolute x y z

/-- Driver effect of a motion call: the (asynchronously reached) target
position and the number of `True` polls taken from the plan. -/
def applyMotion (d : DriverModel) (polls : ℕ) : MotionCall → DriverModel
  | .rel x y z =>
    ⟨(d.position.1 + x, d.position.2.1 + y, d.position.2.2 + z), polls⟩
  | .abs x y z => ⟨(x, y, z), polls⟩

/-- Position updates published by the poll loop, one per `True` poll. -/
def pollEvents (p : ℚ × ℚ × ℚ) : ℕ → List Event
  | 0 => []
  | n + 1 => .positionChanged p.1 p.2.1 p.2.2 :: pollEvents p n

/-- The non-exceptional part of `perform_motion`: issue the motion call, run
the poll loop (publishing a position update per poll), and publish the final
position read. -/
def motionStep (s : WorkerState) (call : MotionCall) : WorkerState × List Event :=
  let polls := s.pollPlan.headD 0
  let d := applyMotion s.driver polls call
  ({ s with driver := { d with movingPolls := 0 },
            statePos := d.position,
            pollPlan := s.pollPlan.tail },
   eventOf call :: (pollEvents d.position polls ++
     [.positionChanged d.position.1 d.position.2.1 d.position.2.2]))

/-- `TableContext.perform_motion`: abort check, motion call, poll-until-idle
loop with abort checks, final abort check and position publish.  With the
abort flag clear (it cannot change during one command in this model) the
in-loop and final abort checks are no-ops. -/
def perform_motion (s : WorkerState) (call : MotionCall) :
    WorkerState × List Event × Option CtrlExc :=
  match raise_on_abort s with
  | (s1, ev, some e) => (s1, ev, some e)
  | (_, _, none) =>
    let r := motionStep s call
    (r.1, r.2, none)

/-- `MoveRelativeCommand.__call__`: `set_moving(True)`, the motion, and the
`finally: set_moving(False)`.  There is no calibration check here. -/
def execMoveRelative (s : WorkerState) (x y z : ℚ) :
    WorkerState × List Event × Option CtrlExc :=
  let (s1, ev1) := set_moving s true
  match perform_motion s1 (.rel x y z) with
  | (s2, ev2, exc) =>
    let (s3, ev3) := set_moving s2 false
    (s3, ev1 ++ ev2 ++ ev3, exc)

/-- `MoveAbsoluteCommand.__call__`: calibration gate first (for both the
plain and the Z-limited variant), then either the single absolute move, or
the three-step Z-limit sequencing; `finally: set_moving(False)` on every
path. -/
def execMoveAbsolute (s : WorkerState) (x y z : ℚ) (z_limit : Option ℚ) :
    WorkerState × List Event × Option CtrlExc :=
  let (s1, ev1) := set_moving s true
  match raise_on_calibration_error s1 with
  | (s2, ev2, some e) =>
    let (s3, ev3) := set_moving s2 false
    (s3, ev1 ++ ev2 ++ ev3, some e)
  | (s2, ev2, none) =>
    match z_limit with
    | none =>
      match perform_motion s2 (.abs x y z) with
      | (s3, ev3, exc) =>
        let (s4, ev4) := set_moving s3 false
        (s4, ev1 ++ ev2 ++ ev3 ++ ev4, exc)
    | some lim =>
      let pos := s2.driver.position
      match (if pos.2.2 > lim then perform_motion s2 (.rel 0 0 (-(pos.2.2 - lim)))
             else (s2, [], none)) with
      | (s3, ev3, some e) =>
        let (s4, ev4) := set_moving s3 false
        (s4, ev1 ++ ev2 ++ ev3 ++ ev4, some e)
      | (s3, ev3, none) =>
        let current_z := if pos.2.2 > lim then lim else pos.2.2
        match (if pos.1 ≠ x ∨ pos.2.1 ≠ y then perform_motion s3 (.abs x y current_z)
               else (s3, [], none)) with
        | (s4, ev4, some e) =>
          let (s5, ev5) := set_moving s4 false
          (s5, ev1 ++ ev2 ++ ev3 ++ ev4 ++ ev5, some e)
        | (s4, ev4, none) =>
          match (if z ≠ current_z then perform_motion s4 (.abs x y z)
                 else (s4, [], none)) with
          | (s5, ev5, exc3) =>
            let (s6, ev6) := set_moving s5 false
            (s6, ev1 ++ ev2 ++ ev3 ++ ev4 ++ ev5 ++ ev6, exc3)

/-- The motion commands a caller can enqueue (the ones the claims need). -/
inductive Cmd
  | moveRelative (x y z : ℚ)
  | moveAbsolute (x y z : ℚ) (z_limit : Option ℚ)
  deriving DecidableEq, Repr

def execCommand (s : WorkerState) : Cmd → WorkerState × List Event × Option CtrlExc
  | .moveRelative x y z => execMoveRelative s x y z
  | .moveAbsolute x y z zl => execMoveAbsolute s x y z zl

/-- One `handle_context` iteration running `command(context)` under
`TableController.on_exception`: `AbortRequest` drains the queue, clears the
abort flag and emits `movement_finished`; `CalibrationError` is only logged.
Both are handled (`on_exception` returns `True`), so nothing propagates and
the connection stays up — an unhandled exception would instead tear down the
context and publish `disconnected`. -/
def handleCommandStep (s : WorkerState) (pending : List Cmd) (c : Cmd) :
    WorkerState × List Cmd × List Event :=
  match execCommand s c with
  | (s1, ev, none) => (s1, pending, ev)
  | (s1, ev, some .abortRequest) =>
    ({ s1 with abortRequested := false }, [], ev ++ [.movementFinished])
  | (s1, ev, some .calibrationError) => (s1, pending, ev)

/-- Is this event a `Driver` motion-method call? -/
def isMotionEvent : Event → Bool
  | .drvMoveRelative _ _ _ => true
  | .drvMoveAbsolute _ _ _ => true
  | _ => false

/-- The `Driver` motion calls among the events, in order. -/
def motionCalls (evs : List Event) : List Event := evs.filter isMotionEvent


/-! ## `core/resource.py` — `Resource.__exit__` -/

/-- Python exception distinguished by the `Resource` model. -/
inductive PyExc
  | attributeError
  deriving DecidableEq, Repr

/-- The `Resource` field relevant to `__exit__`: `self.resource` is the open
pyvisa session or `None`. -/
structure ResourceState where
  resource : Option Unit
  deriving DecidableEq, Repr

/-- `Resource.__enter__` after a successful open: `self.resource` holds the
session. -/
def resourceEnter : ResourceState := ⟨some ()⟩

/-- `Resource.__exit__` body: `try: self.resource.close()` with
`finally: self.resource = None`.  When `self.resource` is already `None` (as
after a previous close), the attribute access `None.close` raises
`AttributeError`; the `finally` still leaves the field at `None` and the
error propagates out of `__exit__`. -/
def resourceExit (s : ResourceState) : ResourceState × Option PyExc :=
  match s.resource with
  | some _ => (⟨none⟩, none)
  | none => (⟨none⟩, some .attributeError)

/-! ## `gui/controller.py` — the command queue of `AbstractController` -/

/-- `CommandEnvelope`: a `(priority, counter, command)` dataclass with
`order=True`, compared lexicographically.  The command payload is abstracted
to an identifier; the strictly increasing counter makes the first two
components unique, so the payload never takes part in a comparison. -/
structure CommandEnvelope where
  priority : Int
  counter : ℕ
  command : ℕ
  deriving DecidableEq, Repr

/-- The dataclass order on envelopes restricted to (priority, counter). -/
def envLE (a b : CommandEnvelope) : Prop :=
  a.priority < b.priority ∨ (a.priority = b.priority ∧ a.counter ≤ b.counter)

/-- Strict version of `envLE`. -/
def envLT (a b : CommandEnvelope) : Prop :=
  a.priority < b.priority ∨ (a.priority = b.priority ∧ a.counter < b.counter)

instance (a b : CommandEnvelope) : Decidable (envLE a b) := by
  unfold envLE; infer_instance

instance (a b : CommandEnvelope) : Decidable (envLT a b) := by
  unfold envLT; infer_instance

/-- `AbstractController`'s queue state: the pending envelopes and the
`itertools.count()` tie-breaker. -/
structure QueueState where
  items : List CommandEnvelope
  counter : ℕ
  deriving DecidableEq, Repr

/-- `AbstractController.put_command`: wrap the command with the given
priority and the next counter value. -/
def put_command (q : QueueState) (priority : Int) (command : ℕ) : QueueState :=
  ⟨q.items ++ [⟨priority, q.counter, command⟩], q.counter + 1⟩

/-- `TableController.connect_table` enqueues `ConnectCommand` at priority
`-1`. -/
def connect_table (q : QueueState) (command : ℕ) : QueueState :=
  put_command q (-1) command

/-- `TableController.disconnect_table` enqueues `DisconnectCommand` at
priority `-1`. -/
def disconnect_table (q : QueueState) (command : ℕ) : QueueState :=
  put_command q (-1) command

/-- All other request methods use `put_command`'s default priority `0`. -/
def put_default (q : QueueState) (command : ℕ) : QueueState :=
  put_command q 0 command

/-- A sequence of `put_command` calls against a fresh controller. -/
def runPuts (l : List (Int × ℕ)) : QueueState :=
  l.foldl (fun q pc => put_command q pc.1 pc.2) ⟨[], 0⟩

/-- Least envelope among `e :: l` in the envelope order — what
`queue.PriorityQueue.get` returns. -/
def minEnv (e : CommandEnvelope) (l : List CommandEnvelope) : CommandEnvelope :=
  l.foldl (fun a b => if envLT b a then b else a) e

/-- `get_command` on a nonempty queue: remove and return the least
envelope. -/
def dequeue (q : QueueState) : Option (CommandEnvelope × QueueState) :=
  match q.items with
  | [] => none
  | e :: l => some (minEnv e l, ⟨(e :: l).erase (minEnv e l), q.counter⟩)

/-- Dequeue repeatedly (fuel-bounded recursion; the fuel `l.length` in
`drainAll` is exact, since each dequeue removes one envelope). -/
def drainSteps : ℕ → List CommandEnvelope → List CommandEnvelope
  | 0, _ => []
  | _, [] => []
  | fuel + 1, e :: l => minEnv e l :: drainSteps fuel ((e :: l).erase (minEnv e l))

/-- Dequeue until empty: the order in which the worker consumes the pending
envelopes when nothing new arrives. -/
def drainAll (l : List CommandEnvelope) : List CommandEnvelope :=
  drainSteps l.length l

/-! ## Theorems -/

lemma matchDigits_head_not_digit {c : Char} (r : List Char) (h : c.isDigit = false) :
    matchDigits (c :: r) = false := by
  simp [matchDigits, h]

lemma matchCOM_head_ne {c : Char} (r : List Char) (h : c ≠ 'C') :
    matchCOM (c :: r) = none := by
  simp [matchCOM, show "COM".data = ['C', 'O', 'M'] from rfl, stripLit, h]

lemma matchASRL_head_ne {c : Char} (r : List Char) (h : c ≠ 'A') :
    matchASRL (c :: r) = none := by
  simp [matchASRL, show "ASRL".data = ['A', 'S', 'R', 'L'] from rfl, stripLit, h]

lemma matchIPv4Port_head {c : Char} (r : List Char) (h1 : c.isDigit = false)
    (h2 : c ≠ '.') : matchIPv4Port (c :: r) = none := by
  simp [matchIPv4Port, takeDigitsThen, List.takeWhile_cons, List.dropWhile_cons, h1, h2]

lemma matchWordPort_shape (ws rest : List Char) (h : ∀ a ∈ ws, isWordChar a) :
    matchWordPort (ws ++ ':' :: ':' :: rest) = none := by
  simp [matchWordPort, List.takeWhile_append_of_pos h, List.dropWhile_append_of_pos h,
    List.takeWhile_cons, List.dropWhile_cons, isWordChar, matchDigits]

lemma grn_gpib_fixed (t : List Char) :
    getResourceNameL ('G' :: 'P' :: 'I' :: 'B' :: '0' :: ':' :: ':' :: t) =
      'G' :: 'P' :: 'I' :: 'B' :: '0' :: ':' :: ':' :: t := by
  have hw : matchWordPort (['G', 'P', 'I', 'B', '0'] ++ ':' :: ':' :: t) = none :=
    matchWordPort_shape _ _ (by decide)
  simp only [List.cons_append, List.nil_append] at hw
  have h1 : matchDigits ('G' :: 'P' :: 'I' :: 'B' :: '0' :: ':' :: ':' :: t) = false :=
    matchDigits_head_not_digit _ (by decide)
  have h2 : matchCOM ('G' :: 'P' :: 'I' :: 'B' :: '0' :: ':' :: ':' :: t) = none :=
    matchCOM_head_ne _ (by decide)
  have h3 : matchASRL ('G' :: 'P' :: 'I' :: 'B' :: '0' :: ':' :: ':' :: t) = none :=
    matchASRL_head_ne _ (by decide)
  have h4 : matchIPv4Port ('G' :: 'P' :: 'I' :: 'B' :: '0' :: ':' :: ':' :: t) = none :=
    matchIPv4Port_head _ (by decide) (by decide)
  simp [getResourceNameL, h1, h2, h3, h4, hw]

lemma grn_tcpip_fixed (t : List Char) :
    getResourceNameL ('T' :: 'C' :: 'P' :: 'I' :: 'P' :: '0' :: ':' :: ':' :: t) =
      'T' :: 'C' :: 'P' :: 'I' :: 'P' :: '0' :: ':' :: ':' :: t := by
  have hw : matchWordPort (['T', 'C', 'P', 'I', 'P', '0'] ++ ':' :: ':' :: t) = none :=
    matchWordPort_shape _ _ (by decide)
  simp only [List.cons_append, List.nil_append] at hw
  have h1 : matchDigits ('T' :: 'C' :: 'P' :: 'I' :: 'P' :: '0' :: ':' :: ':' :: t) = false :=
    matchDigits_head_not_digit _ (by decide)
  have h2 : matchCOM ('T' :: 'C' :: 'P' :: 'I' :: 'P' :: '0' :: ':' :: ':' :: t) = none :=
    matchCOM_head_ne _ (by decide)
  have h3 : matchASRL ('T' :: 'C' :: 'P' :: 'I' :: 'P' :: '0' :: ':' :: ':' :: t) = none :=
    matchASRL_head_ne _ (by decide)
  have h4 : matchIPv4Port ('T' :: 'C' :: 'P' :: 'I' :: 'P' :: '0' :: ':' :: ':' :: t) = none :=
    matchIPv4Port_head _ (by decide) (by decide)
  simp [getResourceNameL, h1, h2, h3, h4, hw]

lemma grn_asrl_fixed (d t : List Char) (hd : d.all Char.isDigit) :
    getResourceNameL ('A' :: 'S' :: 'R' :: 'L' :: (d ++ ':' :: ':' :: t)) =
      'A' :: 'S' :: 'R' :: 'L' :: (d ++ ':' :: ':' :: t) := by
  have hword : ∀ a ∈ 'A' :: 'S' :: 'R' :: 'L' :: d, isWordChar a := by
    intro a ha
    simp only [List.mem_cons] at ha
    rcases ha with rfl | rfl | rfl | rfl | ha
    · decide
    · decide
    · decide
    · decide
    · have := List.all_eq_true.mp hd a ha
      simp [isWordChar, Char.isAlphanum, this]
  have hw : matchWordPort (('A' :: 'S' :: 'R' :: 'L' :: d) ++ ':' :: ':' :: t) = none :=
    matchWordPort_shape _ _ hword
  simp only [List.cons_append] at hw
  have hasrl : matchASRL ('A' :: 'S' :: 'R' :: 'L' :: (d ++ ':' :: ':' :: t)) = none := by
    simp [matchASRL, show "ASRL".data = ['A', 'S', 'R', 'L'] from rfl, stripLit,
      matchDigits, List.all_append]
  have h1 : matchDigits ('A' :: 'S' :: 'R' :: 'L' :: (d ++ ':' :: ':' :: t)) = false :=
    matchDigits_head_not_digit _ (by decide)
  have h2 : matchCOM ('A' :: 'S' :: 'R' :: 'L' :: (d ++ ':' :: ':' :: t)) = none :=
    matchCOM_head_ne _ (by decide)
  have h4 : matchIPv4Port ('A' :: 'S' :: 'R' :: 'L' :: (d ++ ':' :: ':' :: t)) = none :=
    matchIPv4Port_head _ (by decide) (by decide)
  simp [getResourceNameL, h1, h2, hasrl, h4, hw]


lemma matchCOM_digits {l d : List Char} (h : matchCOM l = some d) : d.all Char.isDigit := by
  unfold matchCOM at h
  split at h
  · split at h
    · rename_i hrest hmd
      cases h
      simp only [matchDigits, Bool.and_eq_true] at hmd
      exact hmd.2
    · exact absurd h (by simp)
  · exact absurd h (by simp)

lemma matchASRL_digits {l d : List Char} (h : matchASRL l = some d) : d.all Char.isDigit := by
  unfold matchASRL at h
  split at h
  · split at h
    · rename_i hrest hmd
      cases h
      simp only [matchDigits, Bool.and_eq_true] at hmd
      exact hmd.2
    · exact absurd h (by simp)
  · exact absurd h (by simp)

lemma getResourceNameL_shape (l : List Char) :
    (∃ t, getResourceNameL l = 'G' :: 'P' :: 'I' :: 'B' :: '0' :: ':' :: ':' :: t) ∨
    (∃ d t, d.all Char.isDigit ∧
      getResourceNameL l = 'A' :: 'S' :: 'R' :: 'L' :: (d ++ ':' :: ':' :: t)) ∨
    (∃ t, getResourceNameL l = 'T' :: 'C' :: 'P' :: 'I' :: 'P' :: '0' :: ':' :: ':' :: t) ∨
    getResourceNameL l = l := by
  unfold getResourceNameL
  split
  · exact Or.inl ⟨l ++ "::INSTR".data, by simp [show "GPIB0::".data = ['G', 'P', 'I', 'B', '0', ':', ':'] from rfl]⟩
  split
  · rename_i d hcom
    exact Or.inr (Or.inl ⟨d, "INSTR".data, matchCOM_digits hcom,
      by simp [show "ASRL".data = ['A', 'S', 'R', 'L'] from rfl, show "::INSTR".data = ':' :: ':' :: "INSTR".data from rfl]⟩)
  split
  · rename_i d hasrl
    exact Or.inr (Or.inl ⟨d, "INSTR".data, matchASRL_digits hasrl,
      by simp [show "ASRL".data = ['A', 'S', 'R', 'L'] from rfl, show "::INSTR".data = ':' :: ':' :: "INSTR".data from rfl]⟩)
  split
  · rename_i h p hip
    refine Or.inr (Or.inr (Or.inl ⟨h ++ ':' :: ':' :: (p ++ "::SOCKET".data), ?_⟩))
    simp [show "TCPIP0::".data = ['T', 'C', 'P', 'I', 'P', '0', ':', ':'] from rfl,
      show "::".data = [':', ':'] from rfl, List.append_assoc]
  split
  · rename_i h p hwp
    refine Or.inr (Or.inr (Or.inl ⟨h ++ ':' :: ':' :: (p ++ "::SOCKET".data), ?_⟩))
    simp [show "TCPIP0::".data = ['T', 'C', 'P', 'I', 'P', '0', ':', ':'] from rfl,
      show "::".data = [':', ':'] from rfl, List.append_assoc]
  · exact Or.inr (Or.inr (Or.inr rfl))

theorem getResourceNameL_idem (l : List Char) :
    getResourceNameL (getResourceNameL l) = getResourceNameL l := by
  rcases getResourceNameL_shape l with ⟨t, h⟩ | ⟨d, t, hd, h⟩ | ⟨t, h⟩ | h
  · rw [h, grn_gpib_fixed]
  · rw [h, grn_asrl_fixed _ _ hd]
  · rw [h, grn_tcpip_fixed]
  · rw [h, h]


/-- C8: `get_resource_name` maps "8" to "GPIB0::8::INSTR", "127.0.0.1:4000" to
"TCPIP0::127.0.0.1::4000::SOCKET", and both "COM8" and "ASRL8" to
"ASRL8::INSTR"; and it is idempotent, so every output (every already-canonical
VISA string it produces) passes through unchanged. -/
theorem get_resource_name_normalizes :
    get_resource_name "8" = "GPIB0::8::INSTR" ∧
    get_resource_name "127.0.0.1:4000" = "TCPIP0::127.0.0.1::4000::SOCKET" ∧
    get_resource_name "COM8" = "ASRL8::INSTR" ∧
    get_resource_name "ASRL8" = "ASRL8::INSTR" ∧
    ∀ s : String, get_resource_name (get_resource_name s) = get_resource_name s := by
  refine ⟨by decide, by decide, by decide, by decide, fun s => ?_⟩
  show (⟨getResourceNameL (getResourceNameL s.data)⟩ : String) = ⟨getResourceNameL s.data⟩
  rw [getResourceNameL_idem]


lemma pySplitChar_of_not_mem {sep : Char} {l : List Char} (h : sep ∉ l) :
    pySplitChar sep l = [l] := by
  induction l with
  | nil => rfl
  | cons c cs ih =>
    have hc : ¬(c = sep) := fun hcs => h (hcs ▸ List.mem_cons_self c cs)
    have hcs : sep ∉ cs := fun hm => h (List.mem_cons_of_mem _ hm)
    simp [pySplitChar, hc, ih hcs]

lemma pySplitChar_append {sep : Char} {a : List Char} (b : List Char) (h : sep ∉ a) :
    pySplitChar sep (a ++ sep :: b) = a :: pySplitChar sep b := by
  induction a with
  | nil => simp [pySplitChar]
  | cons c cs ih =>
    have hc : ¬(c = sep) := fun hcs => h (hcs ▸ List.mem_cons_self c cs)
    have hcs : sep ∉ cs := fun hm => h (List.mem_cons_of_mem _ hm)
    simp [pySplitChar, hc, ih hcs]

lemma dropWhile_eq_self_of_all {p : Char → Bool} {l : List Char}
    (h : ∀ c ∈ l, p c = false) : l.dropWhile p = l := by
  cases l with
  | nil => rfl
  | cons c cs => simp [List.dropWhile_cons, h c (by simp)]

lemma pyStrip_eq_self {l : List Char} (h : ∀ c ∈ l, c.isWhitespace = false) :
    pyStrip l = l := by
  have h2 : ∀ c ∈ l.reverse, Char.isWhitespace c = false := by simpa using h
  simp [pyStrip, dropWhile_eq_self_of_all h, dropWhile_eq_self_of_all h2]

section LegacyDispatch

variable (pos : ℚ × ℚ × ℚ) (mv : Bool)

lemma legacyHandleMessage_dispatch_ma (args : List Char)
    (hclean : ∀ c ∈ args, c.isWhitespace = false ∧ c ≠ '=') :
    legacyHandleMessage pos mv ("MA=".data ++ args) =
      legacyMA ("MA=".data ++ args) := by
  have hs : pyStrip ("MA=".data ++ args) = "MA=".data ++ args := by
    refine pyStrip_eq_self fun c hc => ?_
    rcases List.mem_append.mp hc with hm | hm
    · fin_cases hm <;> decide
    · exact (hclean c hm).1
  have hsplit : pySplitChar '=' ("MA=".data ++ args) = [['M', 'A'], args] := by
    have : "MA=".data ++ args = ['M', 'A'] ++ '=' :: args := rfl
    rw [this, pySplitChar_append _ (by decide),
      pySplitChar_of_not_mem (fun hm => (hclean '=' hm).2 rfl)]
  unfold legacyHandleMessage
  rw [hs, hsplit]
  rfl

end LegacyDispatch

lemma legacyMA_eq (args : List Char) (h : '=' ∉ args) :
    legacyMA ("MA=".data ++ args) =
      (match pySplitChar ',' args with
      | [xs, ys, zs] =>
        match parsePyFloat xs, parsePyFloat ys, parsePyFloat zs with
        | some x, some y, some z => (⟨"Done ...".data, [.moveAbsolute x y z]⟩ : LegacyResult)
        | _, _, _ => ⟨"Error !".data, []⟩
      | _ => ⟨"Command not valid !".data, []⟩) := by
  have hsplit : pySplitChar '=' ("MA=".data ++ args) = [['M', 'A'], args] := by
    have heq : "MA=".data ++ args = ['M', 'A'] ++ '=' :: args := rfl
    rw [heq, pySplitChar_append _ (by decide), pySplitChar_of_not_mem h]
  unfold legacyMA
  rw [hsplit]

/-- C9 counterexample: for the input `MA=a,b,c` — whose arguments do not parse
as three floats — `handle_message` replies with the fixed text "Error !", not
"Command not valid !" (no `move_absolute` call is made either way). -/
theorem legacy_ma_error_counterexample :
    parsePyFloat "a".data = none ∧
    legacyHandleMessage (0, 0, 0) false "MA=a,b,c".data = ⟨"Error !".data, []⟩ ∧
    "Error !".data ≠ "Command not valid !".data := ⟨by decide, by decide, by decide⟩

/-- C9 (amended): a line `MA=args` whose arguments do not split into exactly
three comma-separated fields is answered "Command not valid !" with no
controller call; if the arguments split into three fields but some field is
not a float, the reply is the fixed text "Error !", again with no
`move_absolute` call; and every line whose command token is none of `PO?`,
`MR`, `MA`, `???` is answered "Command not valid !". -/
theorem legacy_ma_malformed (pos : ℚ × ℚ × ℚ) (mv : Bool) :
    (∀ args : List Char, (∀ c ∈ args, c.isWhitespace = false ∧ c ≠ '=') →
      ((∀ a b c : List Char, pySplitChar ',' args ≠ [a, b, c]) →
        legacyHandleMessage pos mv ("MA=".data ++ args) =
          ⟨"Command not valid !".data, []⟩) ∧
      (∀ a b c : List Char, pySplitChar ',' args = [a, b, c] →
        (parsePyFloat a = none ∨ parsePyFloat b = none ∨ parsePyFloat c = none) →
        legacyHandleMessage pos mv ("MA=".data ++ args) = ⟨"Error !".data, []⟩)) ∧
    (∀ message : List Char,
      ((pySplitChar '=' (pyStrip message)).headD [] ≠ "PO?".data) →
      ((pySplitChar '=' (pyStrip message)).headD [] ≠ "MR".data) →
      ((pySplitChar '=' (pyStrip message)).headD [] ≠ "MA".data) →
      ((pySplitChar '=' (pyStrip message)).headD [] ≠ "???".data) →
      legacyHandleMessage pos mv message = ⟨"Command not valid !".data, []⟩) := by
  constructor
  · intro args hclean
    have hma := legacyHandleMessage_dispatch_ma pos mv args hclean
    have hne : '=' ∉ args := fun hm => (hclean '=' hm).2 rfl
    constructor
    · intro hno
      rw [hma, legacyMA_eq args hne]
      split
      · rename_i xs ys zs heq
        exact absurd heq (hno xs ys zs)
      · rfl
    · intro a b c heq hor
      rw [hma, legacyMA_eq args hne, heq]
      rcases hor with h | h | h
      · simp [h]
      · cases hpa : parsePyFloat a <;> simp [h]
      · cases hpa : parsePyFloat a <;> cases hpb : parsePyFloat b <;> simp [h]
  · intro message h1 h2 h3 h4
    have hdisp : legacyCommandOf ((pySplitChar '=' (pyStrip message)).headD []) = .other := by
      unfold legacyCommandOf
      rw [if_neg h1, if_neg h2, if_neg h3, if_neg h4]
    simp only [legacyHandleMessage]
    rw [hdisp]

theorem legacy_ma_malformed_witness :
    legacyHandleMessage (0, 0, 0) false ("MA=".data ++ "abc".data) =
      ⟨"Command not valid !".data, []⟩ ∧
    legacyHandleMessage (0, 0, 0) false ("MA=".data ++ "a,b,c".data) =
      ⟨"Error !".data, []⟩ ∧
    legacyHandleMessage (0, 0, 0) false "XY?".data =
      ⟨"Command not valid !".data, []⟩ := by
  refine ⟨((legacy_ma_malformed (0, 0, 0) false).1 "abc".data (by decide)).1 ?_, ?_, ?_⟩
  · intro a b c h
    have : pySplitChar ',' "abc".data = [['a', 'b', 'c']] := by decide
    rw [this] at h
    cases h
  · exact ((legacy_ma_malformed (0, 0, 0) false).1 "a,b,c".data (by decide)).2
      ['a'] ['b'] ['c'] (by decide) (Or.inl (by decide))
  · exact (legacy_ma_malformed (0, 0, 0) false).2 "XY?".data
      (by decide) (by decide) (by decide) (by decide)

lemma legacyHandleMessage_dispatch_mr (pos : ℚ × ℚ × ℚ) (mv : Bool) (rest : List Char)
    (hclean : ∀ c ∈ rest, c.isWhitespace = false ∧ c ≠ '=') :
    legacyHandleMessage pos mv ("MR=".data ++ rest) =
      legacyMR ("MR=".data ++ rest) := by
  have hs : pyStrip ("MR=".data ++ rest) = "MR=".data ++ rest := by
    refine pyStrip_eq_self fun c hc => ?_
    rcases List.mem_append.mp hc with hm | hm
    · fin_cases hm <;> decide
    · exact (hclean c hm).1
  have hsplit : pySplitChar '=' ("MR=".data ++ rest) = [['M', 'R'], rest] := by
    have heq : "MR=".data ++ rest = ['M', 'R'] ++ '=' :: rest := rfl
    rw [heq, pySplitChar_append _ (by decide),
      pySplitChar_of_not_mem (fun hm => (hclean '=' hm).2 rfl)]
  unfold legacyHandleMessage
  rw [hs, hsplit]
  rfl

/-- C10: the legacy `MR=delta,axis` handler computes `int(axis) - 1` and
assigns into a fresh `[0.0, 0.0, 0.0]` with Python list-index semantics, so
axis `0` wraps to index `-1`, i.e. the Z axis: `MR=d,0` is answered
"Done ..." and calls `move_relative(0.0, 0.0, d)`; axis values `4` and above
raise `IndexError` internally and are answered "Command not valid !". -/
theorem legacy_mr_axis_wraparound (pos : ℚ × ℚ × ℚ) (mv : Bool)
    (d a : List Char) (v : ℚ) (n : Int)
    (hd : ∀ c ∈ d, c.isWhitespace = false ∧ c ≠ '=' ∧ c ≠ ',')
    (ha : ∀ c ∈ a, c.isWhitespace = false ∧ c ≠ '=' ∧ c ≠ ',')
    (hdv : parsePyFloat d = some v) (hav : parsePyInt a = some n) :
    (n = 0 → legacyHandleMessage pos mv ("MR=".data ++ (d ++ ',' :: a)) =
      ⟨"Done ...".data, [.moveRelative 0 0 v]⟩) ∧
    (4 ≤ n → legacyHandleMessage pos mv ("MR=".data ++ (d ++ ',' :: a)) =
      ⟨"Command not valid !".data, []⟩) := by
  have hclean : ∀ c ∈ d ++ ',' :: a, c.isWhitespace = false ∧ c ≠ '=' := by
    intro c hc
    rcases List.mem_append.mp hc with hm | hm
    · exact ⟨(hd c hm).1, (hd c hm).2.1⟩
    · rcases List.mem_cons.mp hm with rfl | hm
      · exact ⟨by decide, by decide⟩
      · exact ⟨(ha c hm).1, (ha c hm).2.1⟩
  have hkey : legacyHandleMessage pos mv ("MR=".data ++ (d ++ ',' :: a)) =
      (match pyListSet3 (n - 1) v with
       | some (x, y, z) => (⟨"Done ...".data, [.moveRelative x y z]⟩ : LegacyResult)
       | none => ⟨"Command not valid !".data, []⟩) := by
    rw [legacyHandleMessage_dispatch_mr pos mv _ hclean]
    have hsplit : pySplitChar '=' ("MR=".data ++ (d ++ ',' :: a)) =
        [['M', 'R'], d ++ ',' :: a] := by
      have heq : "MR=".data ++ (d ++ ',' :: a) = ['M', 'R'] ++ '=' :: (d ++ ',' :: a) := rfl
      rw [heq, pySplitChar_append _ (by decide),
        pySplitChar_of_not_mem (fun hm => (hclean '=' hm).2 rfl)]
    have hcomma : pySplitChar ',' (d ++ ',' :: a) = [d, a] := by
      rw [pySplitChar_append _ (fun hm => (hd ',' hm).2.2 rfl),
        pySplitChar_of_not_mem (fun hm => (ha ',' hm).2.2 rfl)]
    unfold legacyMR
    rw [hsplit]
    simp only [hcomma, hav, hdv]
  constructor
  · intro hn
    subst hn
    rw [hkey]
    norm_num [pyListSet3]
  · intro hn
    have c1 : ¬(n - 1 = 0 ∨ n - 1 = -3) := by omega
    have c2 : ¬(n - 1 = 1 ∨ n - 1 = -2) := by omega
    have c3 : ¬(n - 1 = 2 ∨ n - 1 = -1) := by omega
    rw [hkey]
    unfold pyListSet3
    rw [if_neg c1, if_neg c2, if_neg c3]

theorem legacy_mr_axis_wraparound_witness :
    legacyHandleMessage (0, 0, 0) false ("MR=".data ++ ("2".data ++ ',' :: "0".data)) =
      ⟨"Done ...".data, [.moveRelative 0 0 2]⟩ ∧
    legacyHandleMessage (0, 0, 0) false ("MR=".data ++ ("2".data ++ ',' :: "4".data)) =
      ⟨"Command not valid !".data, []⟩ :=
  ⟨(legacy_mr_axis_wraparound (0, 0, 0) false "2".data "0".data 2 0
      (by decide) (by decide) (by decide) (by decide)).1 rfl,
   (legacy_mr_axis_wraparound (0, 0, 0) false "2".data "4".data 2 4
      (by decide) (by decide) (by decide) (by decide)).2 (by norm_num)⟩


/-- C3 (code bug): the SCPI queries `ZLIMit:ENABle?` and `ZLIMit:VALue?` do
not return `1`/`0` or a formatted float — they raise `AttributeError` out of
`handle_message` (for every server state), because `TableController` defines
no `z_limit_enabled`/`z_limit` attribute. -/
theorem scpi_zlimit_query_raises (idn : List Char) (table : TableModel)
    (stack : List (ℕ × List Char)) :
    scpiHandleMessage idn table stack "ZLIMit:ENABle?".data = ⟨.raised, stack, []⟩ ∧
    scpiHandleMessage idn table stack "ZLIMit:VALue?".data = ⟨.raised, stack, []⟩ :=
  ⟨rfl, rfl⟩

/-- C7: SCPI error-stack semantics.  (1) an unrecognized command token appends
`(100, "invalid command")`; (2)–(3) a recognized `MOVE:RELative` /
`MOVE:ABSolute` whose arguments are missing or do not parse as three floats
appends `(101, "invalid attributes")` and makes no motion call; (4)
`SYStem:ERRor:NEXT?` pops and returns the oldest entry as `code,"message"`;
(5) it returns `0,"no error"` on an empty stack; (6) `*CLS` empties the stack
and an immediately following `SYStem:ERRor:COUNt?` replies `0`. -/
theorem scpi_error_stack_semantics (idn : List Char) (table : TableModel) :
    (∀ (stack : List (ℕ × List Char)) (message tok : List Char)
      (rest : List (List Char)), pySplitMax1 message = tok :: rest →
      scpiParseCommand ⟨tok.map Char.toLower⟩ = .invalid →
      scpiHandleMessage idn table stack message =
        ⟨.silent, stack ++ [(100, "invalid command".data)], []⟩) ∧
    (∀ (stack : List (ℕ × List Char)) (message tok args : List Char),
      pySplitMax1 message = [tok, args] →
      scpiParseCommand ⟨tok.map Char.toLower⟩ = .moveRel →
      parse3Floats args = none →
      scpiHandleMessage idn table stack message =
        ⟨.silent, stack ++ [(101, "invalid attributes".data)], []⟩) ∧
    (∀ (stack : List (ℕ × List Char)) (message tok args : List Char),
      pySplitMax1 message = [tok, args] →
      scpiParseCommand ⟨tok.map Char.toLower⟩ = .moveAbs →
      parse3Floats args = none →
      scpiHandleMessage idn table stack message =
        ⟨.silent, stack ++ [(101, "invalid attributes".data)], []⟩) ∧
    (∀ (code : ℕ) (msg : List Char) (restStack : List (ℕ × List Char)),
      scpiHandleMessage idn table ((code, msg) :: restStack) "SYStem:ERRor:NEXT?".data =
        ⟨.reply ((toString code).data ++ ',' :: '"' :: (msg ++ ['"'])), restStack, []⟩) ∧
    (scpiHandleMessage idn table [] "SYStem:ERRor:NEXT?".data =
      ⟨.reply "0,\"no error\"".data, [], []⟩) ∧
    (∀ stack : List (ℕ × List Char),
      (scpiHandleMessage idn table stack "*CLS".data).errorStack = [] ∧
      scpiHandleMessage idn table
          (scpiHandleMessage idn table stack "*CLS".data).errorStack
          "SYStem:ERRor:COUNt?".data = ⟨.reply ['0'], [], []⟩) := by
  refine ⟨?_, ?_, ?_, ?_, rfl, ?_⟩
  · intro stack message tok rest hsplit hcmd
    unfold scpiHandleMessage
    rw [hsplit]
    simp only [hcmd]
  · intro stack message tok args hsplit hcmd hargs
    unfold scpiHandleMessage
    rw [hsplit]
    simp only [hcmd, hargs]
  · intro stack message tok args hsplit hcmd hargs
    unfold scpiHandleMessage
    rw [hsplit]
    simp only [hcmd, hargs]
  · intro code msg restStack
    rfl
  · intro stack
    refine ⟨rfl, ?_⟩
    show scpiHandleMessage idn table [] "SYStem:ERRor:COUNt?".data = ⟨.reply ['0'], [], []⟩
    rfl

theorem scpi_error_stack_semantics_witness :
    scpiHandleMessage [] ⟨(0, 0, 0), (3, 3, 3), false⟩ [] "FOO".data =
      ⟨.silent, [(100, "invalid command".data)], []⟩ ∧
    scpiHandleMessage [] ⟨(0, 0, 0), (3, 3, 3), false⟩ [] "MOVE:RELative 1,2".data =
      ⟨.silent, [(101, "invalid attributes".data)], []⟩ ∧
    scpiHandleMessage [] ⟨(0, 0, 0), (3, 3, 3), false⟩ [] "MOVE:ABSolute x,y,z".data =
      ⟨.silent, [(101, "invalid attributes".data)], []⟩ := by
  have h := scpi_error_stack_semantics [] ⟨(0, 0, 0), (3, 3, 3), false⟩
  refine ⟨?_, ?_, ?_⟩
  · exact h.1 [] "FOO".data ['F', 'O', 'O'] [] (by decide) (by decide)
  · exact h.2.1 [] "MOVE:RELative 1,2".data "MOVE:RELative".data "1,2".data
      (by decide) (by decide) (by decide)
  · exact h.2.2.1 [] "MOVE:ABSolute x,y,z".data "MOVE:ABSolute".data "x,y,z".data
      (by decide) (by decide) (by decide)


lemma motionCalls_pollEvents (p : ℚ × ℚ × ℚ) (n : ℕ) :
    (pollEvents p n).filter isMotionEvent = [] := by
  induction n with
  | zero => rfl
  | succ k ih => simp [pollEvents, isMotionEvent, ih]

lemma motionStep_filter (s : WorkerState) (call : MotionCall) :
    ((motionStep s call).2).filter isMotionEvent = [eventOf call] := by
  cases call <;>
    simp [motionStep, isMotionEvent, motionCalls_pollEvents, eventOf, applyMotion]

lemma motionStep_abortRequested (s : WorkerState) (call : MotionCall) :
    (motionStep s call).1.abortRequested = s.abortRequested := by
  simp [motionStep]

lemma perform_motion_not_abort (s : WorkerState) (call : MotionCall)
    (h : s.abortRequested = false) :
    perform_motion s call = ((motionStep s call).1, (motionStep s call).2, none) := by
  simp [perform_motion, raise_on_abort, h]

/-- C1 counterexample: with calibration `(0,0,0)` (all axes uncalibrated), a
`MoveRelativeCommand` still issues its `Driver.move_relative` call, makes no
`Driver.abort()` call and raises no `CalibrationError` — the relative-move
command has no calibration gate. -/
theorem calibration_gate_relative_counterexample :
    motionCalls (execCommand ⟨⟨(0, 0, 0), 0⟩, false, (0, 0, 0), (0, 0, 0), false, []⟩
        (.moveRelative 1 2 3)).2.1 = [.drvMoveRelative 1 2 3] ∧
    Event.drvAbort ∉ (execCommand ⟨⟨(0, 0, 0), 0⟩, false, (0, 0, 0), (0, 0, 0), false, []⟩
        (.moveRelative 1 2 3)).2.1 ∧
    (execCommand ⟨⟨(0, 0, 0), 0⟩, false, (0, 0, 0), (0, 0, 0), false, []⟩
        (.moveRelative 1 2 3)).2.2 = none := by
  refine ⟨?_, ?_, ?_⟩ <;>
    simp [execCommand, execMoveRelative, set_moving, perform_motion, raise_on_abort,
      motionStep, applyMotion, pollEvents, motionCalls, isMotionEvent, eventOf]

/-- C1 (amended): the calibration gate guards `MoveAbsoluteCommand` — with or
without a Z-limit — not `MoveRelativeCommand`.  If any axis's cached
calibration differs from 3, executing a `MoveAbsoluteCommand` makes no Driver
motion call, calls `Driver.abort()` exactly once and raises
`CalibrationError`; `on_exception` handles it, leaving the pending queue
untouched and emitting no `disconnected` (the controller stays connected).
A `MoveRelativeCommand`, by contrast, performs no calibration check: it
issues its motion call and raises nothing even with uncalibrated axes. -/
theorem calibration_gate_guards_absolute (s : WorkerState) (x y z : ℚ)
    (zl : Option ℚ)
    (hcal : s.calibration.1 ≠ 3 ∨ s.calibration.2.1 ≠ 3 ∨ s.calibration.2.2 ≠ 3) :
    (motionCalls (execMoveAbsolute s x y z zl).2.1 = [] ∧
     (execMoveAbsolute s x y z zl).2.1.count Event.drvAbort = 1 ∧
     (execMoveAbsolute s x y z zl).2.2 = some .calibrationError ∧
     ∀ pending : List Cmd,
       (handleCommandStep s pending (.moveAbsolute x y z zl)).2.1 = pending ∧
       Event.disconnectedSig ∉ (handleCommandStep s pending (.moveAbsolute x y z zl)).2.2) ∧
    (s.abortRequested = false →
      motionCalls (execMoveRelative s x y z).2.1 = [.drvMoveRelative x y z] ∧
      (execMoveRelative s x y z).2.2 = none) := by
  have hev : (execMoveAbsolute s x y z zl).2.1 =
      [.movementStarted, .drvAbort, .movementFinished] := by
    simp [execMoveAbsolute, set_moving, raise_on_calibration_error, hcal]
  have hexc : (execMoveAbsolute s x y z zl).2.2 = some .calibrationError := by
    simp [execMoveAbsolute, set_moving, raise_on_calibration_error, hcal]
  constructor
  · refine ⟨?_, ?_, hexc, ?_⟩
    · rw [motionCalls, hev]; decide
    · rw [hev]; decide
    · intro pending
      have hstep21 : (handleCommandStep s pending (.moveAbsolute x y z zl)).2.1 = pending := by
        simp [handleCommandStep, execCommand, execMoveAbsolute, set_moving,
          raise_on_calibration_error, hcal]
      have hstep22 : (handleCommandStep s pending (.moveAbsolute x y z zl)).2.2 =
          [.movementStarted, .drvAbort, .movementFinished] := by
        simp [handleCommandStep, execCommand, execMoveAbsolute, set_moving,
          raise_on_calibration_error, hcal]
      rw [hstep21, hstep22]
      exact ⟨rfl, by decide⟩
  · intro hab
    have h1 : ({ s with isMoving := true } : WorkerState).abortRequested = false := hab
    rw [show execMoveRelative s x y z =
        ((set_moving (motionStep { s with isMoving := true } (.rel x y z)).1 false).1,
         [Event.movementStarted] ++ (motionStep { s with isMoving := true } (.rel x y z)).2 ++
           [Event.movementFinished], none) from by
      simp [execMoveRelative, set_moving, perform_motion_not_abort _ _ h1]]
    refine ⟨?_, rfl⟩
    simp [motionCalls, isMotionEvent, motionStep_filter, eventOf]

theorem calibration_gate_guards_absolute_witness :
    (motionCalls (execMoveAbsolute ⟨⟨(0, 0, 0), 0⟩, false, (0, 0, 0), (0, 0, 0), false, []⟩
        1 2 3 (some 5)).2.1 = [] ∧
     (execMoveAbsolute ⟨⟨(0, 0, 0), 0⟩, false, (0, 0, 0), (0, 0, 0), false, []⟩
        1 2 3 (some 5)).2.1.count Event.drvAbort = 1 ∧
     (execMoveAbsolute ⟨⟨(0, 0, 0), 0⟩, false, (0, 0, 0), (0, 0, 0), false, []⟩
        1 2 3 (some 5)).2.2 = some .calibrationError ∧
     ∀ pending : List Cmd,
       (handleCommandStep ⟨⟨(0, 0, 0), 0⟩, false, (0, 0, 0), (0, 0, 0), false, []⟩
          pending (.moveAbsolute 1 2 3 (some 5))).2.1 = pending ∧
       Event.disconnectedSig ∉ (handleCommandStep ⟨⟨(0, 0, 0), 0⟩, false, (0, 0, 0),
          (0, 0, 0), false, []⟩ pending (.moveAbsolute 1 2 3 (some 5))).2.2) ∧
    (motionCalls (execMoveRelative ⟨⟨(0, 0, 0), 0⟩, false, (0, 0, 0), (0, 0, 0), false, []⟩
        1 2 3).2.1 = [.drvMoveRelative 1 2 3] ∧
     (execMoveRelative ⟨⟨(0, 0, 0), 0⟩, false, (0, 0, 0), (0, 0, 0), false, []⟩
        1 2 3).2.2 = none) :=
  ⟨(calibration_gate_guards_absolute _ 1 2 3 (some 5) (by decide)).1,
   (calibration_gate_guards_absolute _ 1 2 3 (some 5) (by decide)).2 rfl⟩

/-- C4 counterexample: with the abort flag set before the first poll point,
running a `MoveRelativeCommand` through the worker's exception handling emits
`movement_finished` twice — once from the command's `finally:
set_moving(False)` and once from `on_exception` — not exactly once. -/
theorem abort_single_finished_counterexample :
    ((handleCommandStep ⟨⟨(0, 0, 0), 0⟩, false, (0, 0, 0), (3, 3, 3), true, []⟩
        [.moveRelative 9 9 9] (.moveRelative 1 2 3)).2.2).count Event.movementFinished = 2 ∧
    ¬((handleCommandStep ⟨⟨(0, 0, 0), 0⟩, false, (0, 0, 0), (3, 3, 3), true, []⟩
        [.moveRelative 9 9 9] (.moveRelative 1 2 3)).2.2).count Event.movementFinished = 1 := by
  decide

/-- C4 (amended): if the abort flag is set when a motion command reaches its
first poll point, the worker makes exactly one `Driver.abort()` call, the
pending command queue is drained empty, the abort flag is cleared, no Driver
motion call is made, nothing escapes to the event loop and no `disconnected`
is published — but `movement_finished` is emitted exactly twice (once by the
command's `finally` via `set_moving(False)`, once by `on_exception`), not
exactly once. -/
theorem abort_protocol (s : WorkerState) (pending : List Cmd) (x y z : ℚ)
    (hab : s.abortRequested = true) :
    ((handleCommandStep s pending (.moveRelative x y z)).2.2).count Event.drvAbort = 1 ∧
    (handleCommandStep s pending (.moveRelative x y z)).2.1 = [] ∧
    (handleCommandStep s pending (.moveRelative x y z)).1.abortRequested = false ∧
    ((handleCommandStep s pending (.moveRelative x y z)).2.2).count
      Event.movementFinished = 2 ∧
    motionCalls (handleCommandStep s pending (.moveRelative x y z)).2.2 = [] ∧
    Event.disconnectedSig ∉ (handleCommandStep s pending (.moveRelative x y z)).2.2 := by
  have hev : (handleCommandStep s pending (.moveRelative x y z)).2.2 =
      [.movementStarted, .drvAbort, .movementFinished, .movementFinished] := by
    simp [handleCommandStep, execCommand, execMoveRelative, perform_motion,
      raise_on_abort, set_moving, hab]
  have hq : (handleCommandStep s pending (.moveRelative x y z)).2.1 = [] := by
    simp [handleCommandStep, execCommand, execMoveRelative, perform_motion,
      raise_on_abort, set_moving, hab]
  have hflag : (handleCommandStep s pending (.moveRelative x y z)).1.abortRequested = false := by
    simp [handleCommandStep, execCommand, execMoveRelative, perform_motion,
      raise_on_abort, set_moving, hab]
  rw [motionCalls, hev, hq, hflag]
  refine ⟨by decide, rfl, rfl, by decide, by decide, by decide⟩

theorem abort_protocol_witness :
    ((handleCommandStep ⟨⟨(0, 0, 0), 0⟩, false, (0, 0, 0), (3, 3, 3), true, []⟩
        [.moveAbsolute 1 1 1 none] (.moveRelative 1 2 3)).2.2).count Event.drvAbort = 1 ∧
    (handleCommandStep ⟨⟨(0, 0, 0), 0⟩, false, (0, 0, 0), (3, 3, 3), true, []⟩
        [.moveAbsolute 1 1 1 none] (.moveRelative 1 2 3)).2.1 = [] ∧
    (handleCommandStep ⟨⟨(0, 0, 0), 0⟩, false, (0, 0, 0), (3, 3, 3), true, []⟩
        [.moveAbsolute 1 1 1 none] (.moveRelative 1 2 3)).1.abortRequested = false ∧
    ((handleCommandStep ⟨⟨(0, 0, 0), 0⟩, false, (0, 0, 0), (3, 3, 3), true, []⟩
        [.moveAbsolute 1 1 1 none] (.moveRelative 1 2 3)).2.2).count
      Event.movementFinished = 2 ∧
    motionCalls (handleCommandStep ⟨⟨(0, 0, 0), 0⟩, false, (0, 0, 0), (3, 3, 3), true, []⟩
        [.moveAbsolute 1 1 1 none] (.moveRelative 1 2 3)).2.2 = [] ∧
    Event.disconnectedSig ∉ (handleCommandStep ⟨⟨(0, 0, 0), 0⟩, false, (0, 0, 0),
        (3, 3, 3), true, []⟩ [.moveAbsolute 1 1 1 none] (.moveRelative 1 2 3)).2.2 :=
  abort_protocol _ [.moveAbsolute 1 1 1 none] 1 2 3 rfl

lemma cond_motion_none (s : WorkerState) (c : Prop) [Decidable c] (call : MotionCall)
    (h : s.abortRequested = false) :
    (if c then perform_motion s call else (s, [], none)) =
      ((if c then (motionStep s call).1 else s),
       (if c then (motionStep s call).2 else []), none) := by
  split <;> simp [perform_motion_not_abort _ _ h]

lemma cond_motion_abortRequested (s : WorkerState) (c : Prop) [Decidable c]
    (call : MotionCall) (h : s.abortRequested = false) :
    (if c then (motionStep s call).1 else s).abortRequested = false := by
  split
  · rw [motionStep_abortRequested]; exact h
  · exact h

/-- C2: Z-limit move sequencing of `MoveAbsoluteCommand` with `z_limit` set,
executed with all axes calibrated and no abort requested.  In general the
Driver motion calls are exactly: a relative `(0, 0, z_limit − current_z)`
drop iff the current Z is above `z_limit`, an absolute `(x, y, safe_z)` XY
move iff the target X or Y differs from the current position, and a final
absolute `(x, y, z)` iff the target Z differs from the safe Z (`safe_z` is
`z_limit` after a drop, else the current Z).  In particular, from
`(0, 0, 10)` with `z_limit = 5` and target `(3, 4, 8)` exactly three calls
are issued, in order: `move_relative(0, 0, −5)`, `move_absolute(3, 4, 5)`,
`move_absolute(3, 4, 8)`. -/
theorem zlimit_move_sequencing :
    (∀ (s : WorkerState) (x y z lim : ℚ),
      s.calibration = (3, 3, 3) → s.abortRequested = false →
      motionCalls (execMoveAbsolute s x y z (some lim)).2.1 =
        (if s.driver.position.2.2 > lim then
          [Event.drvMoveRelative 0 0 (lim - s.driver.position.2.2)] else []) ++
        ((if s.driver.position.1 ≠ x ∨ s.driver.position.2.1 ≠ y then
            [Event.drvMoveAbsolute x y
              (if s.driver.position.2.2 > lim then lim else s.driver.position.2.2)]
          else []) ++
         (if z ≠ (if s.driver.position.2.2 > lim then lim else s.driver.position.2.2) then
            [Event.drvMoveAbsolute x y z] else []))) ∧
    (∀ s : WorkerState, s.driver.position = (0, 0, 10) → s.calibration = (3, 3, 3) →
      s.abortRequested = false →
      motionCalls (execMoveAbsolute s 3 4 8 (some 5)).2.1 =
        [.drvMoveRelative 0 0 (-5), .drvMoveAbsolute 3 4 5, .drvMoveAbsolute 3 4 8]) := by
  have main : ∀ (s : WorkerState) (x y z lim : ℚ),
      s.calibration = (3, 3, 3) → s.abortRequested = false →
      motionCalls (execMoveAbsolute s x y z (some lim)).2.1 =
        (if s.driver.position.2.2 > lim then
          [Event.drvMoveRelative 0 0 (lim - s.driver.position.2.2)] else []) ++
        ((if s.driver.position.1 ≠ x ∨ s.driver.position.2.1 ≠ y then
            [Event.drvMoveAbsolute x y
              (if s.driver.position.2.2 > lim then lim else s.driver.position.2.2)]
          else []) ++
         (if z ≠ (if s.driver.position.2.2 > lim then lim else s.driver.position.2.2) then
            [Event.drvMoveAbsolute x y z] else [])) := by
    intro s x y z lim hcal hab
    have hgate : raise_on_calibration_error { s with isMoving := true } =
        ({ s with isMoving := true }, [], none) := by
      simp [raise_on_calibration_error, hcal]
    have hab1 : ({ s with isMoving := true } : WorkerState).abortRequested = false := hab
    simp only [execMoveAbsolute, set_moving, hgate,
      cond_motion_none _ _ _ hab1,
      cond_motion_none _ _ _ (cond_motion_abortRequested _ _ _ hab1),
      cond_motion_none _ _ _
        (cond_motion_abortRequested _ _ _ (cond_motion_abortRequested _ _ _ hab1))]
    simp only [motionCalls, List.filter_cons, List.filter_append,
      apply_ite (List.filter isMotionEvent), motionStep_filter, eventOf, neg_sub,
      isMotionEvent]
    simp [neg_sub]
  refine ⟨main, ?_⟩
  intro s hpos hcal hab
  rw [main s 3 4 8 5 hcal hab, hpos]
  norm_num

theorem zlimit_move_sequencing_witness :
    motionCalls (execMoveAbsolute ⟨⟨(0, 0, 10), 0⟩, false, (0, 0, 0), (3, 3, 3), false, []⟩
        3 4 8 (some 5)).2.1 =
      [.drvMoveRelative 0 0 (-5), .drvMoveAbsolute 3 4 5, .drvMoveAbsolute 3 4 8] :=
  zlimit_move_sequencing.2 ⟨⟨(0, 0, 10), 0⟩, false, (0, 0, 0), (3, 3, 3), false, []⟩
    rfl rfl rfl


lemma envLE_refl (a : CommandEnvelope) : envLE a a := by unfold envLE; omega

lemma envLE_of_envLT {a b : CommandEnvelope} (h : envLT a b) : envLE a b := by
  unfold envLT at h; unfold envLE; omega

lemma envLE_of_not_envLT {a b : CommandEnvelope} (h : ¬envLT b a) : envLE a b := by
  unfold envLT at h; unfold envLE; omega

lemma envLE_trans {a b c : CommandEnvelope} (h1 : envLE a b) (h2 : envLE b c) :
    envLE a c := by
  unfold envLE at h1 h2 ⊢; omega

lemma envLT_of_envLE_of_ne_counter {a b : CommandEnvelope} (h : envLE a b)
    (hne : a.counter ≠ b.counter) : envLT a b := by
  unfold envLE at h; unfold envLT; omega

lemma envLT_asymm {a b : CommandEnvelope} (h : envLT a b) : ¬envLT b a := by
  unfold envLT at h ⊢; omega

lemma envLT_irrefl (a : CommandEnvelope) : ¬envLT a a := by unfold envLT; omega

lemma minEnv_mem (e : CommandEnvelope) (l : List CommandEnvelope) :
    minEnv e l ∈ e :: l := by
  induction l generalizing e with
  | nil => simp [minEnv]
  | cons b t ih =>
    have key : minEnv e (b :: t) = minEnv (if envLT b e then b else e) t := rfl
    rw [key]
    rcases List.mem_cons.mp (ih (if envLT b e then b else e)) with h | h
    · rw [h]
      split <;> simp
    · simp [h]

lemma minEnv_le (e : CommandEnvelope) (l : List CommandEnvelope) :
    ∀ x ∈ e :: l, envLE (minEnv e l) x := by
  induction l generalizing e with
  | nil =>
    intro x hx
    rw [List.mem_singleton.mp hx]
    simp [minEnv, envLE_refl]
  | cons b t ih =>
    intro x hx
    have key : minEnv e (b :: t) = minEnv (if envLT b e then b else e) t := rfl
    have hhead : envLE (minEnv (if envLT b e then b else e) t) (if envLT b e then b else e) :=
      ih _ _ (List.mem_cons_self _ _)
    have hle_e : envLE (if envLT b e then b else e) e := by
      split
      · exact envLE_of_envLT (by assumption)
      · exact envLE_refl e
    have hle_b : envLE (if envLT b e then b else e) b := by
      split
      · exact envLE_refl b
      · exact envLE_of_not_envLT (by assumption)
    rcases List.mem_cons.mp hx with rfl | hx2
    · rw [key]; exact envLE_trans hhead hle_e
    rcases List.mem_cons.mp hx2 with rfl | hx3
    · rw [key]; exact envLE_trans hhead hle_b
    · rw [key]; exact ih _ x (List.mem_cons_of_mem _ hx3)

lemma drainSteps_perm : ∀ (fuel : ℕ) (l : List CommandEnvelope),
    l.length ≤ fuel → List.Perm (drainSteps fuel l) l := by
  intro fuel
  induction fuel with
  | zero =>
    intro l hl
    rw [List.length_eq_zero.mp (Nat.le_zero.mp hl)]
    exact List.Perm.refl _
  | succ n ih =>
    intro l hl
    match l with
    | [] => exact List.Perm.refl _
    | e :: t =>
      have hm : minEnv e t ∈ e :: t := minEnv_mem e t
      have hlen : ((e :: t).erase (minEnv e t)).length ≤ n := by
        rw [List.length_erase_of_mem hm]
        simpa using hl
      rw [show drainSteps (n + 1) (e :: t)
          = minEnv e t :: drainSteps n ((e :: t).erase (minEnv e t)) from rfl]
      exact ((ih _ hlen).cons _).trans (List.perm_cons_erase hm).symm

lemma drainAll_perm (l : List CommandEnvelope) : List.Perm (drainAll l) l :=
  drainSteps_perm l.length l le_rfl

lemma drainSteps_sorted : ∀ (fuel : ℕ) (l : List CommandEnvelope),
    l.length ≤ fuel → (l.map CommandEnvelope.counter).Nodup →
    (drainSteps fuel l).Sorted envLT := by
  intro fuel
  induction fuel with
  | zero => intro l _ _; simp [drainSteps]
  | succ n ih =>
    intro l hl hnd
    match l with
    | [] => simp [drainSteps]
    | e :: t =>
      have hm : minEnv e t ∈ e :: t := minEnv_mem e t
      have hperm : List.Perm (e :: t) (minEnv e t :: (e :: t).erase (minEnv e t)) :=
        List.perm_cons_erase hm
      have hnd2 : ((minEnv e t :: (e :: t).erase (minEnv e t)).map
          CommandEnvelope.counter).Nodup := (hperm.map _).nodup_iff.mp hnd
      have hnotmem : (minEnv e t).counter ∉
          (((e :: t).erase (minEnv e t)).map CommandEnvelope.counter) := by
        have := hnd2
        simp only [List.map_cons, List.nodup_cons] at this
        exact this.1
      have hndrest : (((e :: t).erase (minEnv e t)).map CommandEnvelope.counter).Nodup := by
        have := hnd2
        simp only [List.map_cons, List.nodup_cons] at this
        exact this.2
      have hlen : ((e :: t).erase (minEnv e t)).length ≤ n := by
        rw [List.length_erase_of_mem hm]
        simpa using hl
      rw [show drainSteps (n + 1) (e :: t)
          = minEnv e t :: drainSteps n ((e :: t).erase (minEnv e t)) from rfl]
      rw [List.sorted_cons]
      refine ⟨?_, ih _ hlen hndrest⟩
      intro x hx
      have hxmem : x ∈ (e :: t).erase (minEnv e t) :=
        (drainSteps_perm n _ hlen).mem_iff.mp hx
      have hxl : x ∈ e :: t := List.mem_of_mem_erase hxmem
      have hle : envLE (minEnv e t) x := minEnv_le e t x hxl
      have hnec : (minEnv e t).counter ≠ x.counter := by
        intro hc
        exact hnotmem (hc ▸ List.mem_map_of_mem CommandEnvelope.counter hxmem)
      exact envLT_of_envLE_of_ne_counter hle hnec

lemma put_command_inv (q : QueueState) (p : Int) (c : ℕ)
    (h1 : ∀ e ∈ q.items, e.counter < q.counter)
    (h2 : (q.items.map CommandEnvelope.counter).Nodup) :
    (∀ e ∈ (put_command q p c).items, e.counter < (put_command q p c).counter) ∧
    ((put_command q p c).items.map CommandEnvelope.counter).Nodup := by
  constructor
  · intro e he
    simp only [put_command, List.mem_append, List.mem_singleton] at he
    rcases he with he | rfl
    · exact Nat.lt_succ_of_lt (h1 e he)
    · exact Nat.lt_succ_self _
  · simp only [put_command, List.map_append, List.map_cons, List.map_nil]
    rw [List.nodup_append]
    refine ⟨h2, List.nodup_singleton _, ?_⟩
    intro a ha hb
    rw [List.mem_singleton.mp hb] at ha
    obtain ⟨e, he, hec⟩ := List.mem_map.mp ha
    exact absurd hec (Nat.ne_of_lt (h1 e he))

lemma runPuts_aux : ∀ (l : List (Int × ℕ)) (q : QueueState),
    (∀ e ∈ q.items, e.counter < q.counter) →
    (q.items.map CommandEnvelope.counter).Nodup →
    (∀ e ∈ (l.foldl (fun q pc => put_command q pc.1 pc.2) q).items,
      e.counter < (l.foldl (fun q pc => put_command q pc.1 pc.2) q).counter) ∧
    ((l.foldl (fun q pc => put_command q pc.1 pc.2) q).items.map
      CommandEnvelope.counter).Nodup := by
  intro l
  induction l with
  | nil => intro q h1 h2; exact ⟨h1, h2⟩
  | cons pc t ih =>
    intro q h1 h2
    have hp := put_command_inv q pc.1 pc.2 h1 h2
    exact ih _ hp.1 hp.2

lemma runPuts_nodup (l : List (Int × ℕ)) :
    ((runPuts l).items.map CommandEnvelope.counter).Nodup :=
  (runPuts_aux l ⟨[], 0⟩ (by simp) (by simp)).2

lemma sorted_exists_indices {d : List CommandEnvelope} (hs : d.Sorted envLT)
    {e1 e2 : CommandEnvelope} (h1 : e1 ∈ d) (h2 : e2 ∈ d) (hlt : envLT e1 e2) :
    ∃ i j, i < j ∧ d.get? i = some e1 ∧ d.get? j = some e2 := by
  obtain ⟨i, hi⟩ := List.get_of_mem h1
  obtain ⟨j, hj⟩ := List.get_of_mem h2
  refine ⟨i, j, ?_, ?_, ?_⟩
  · rcases lt_trichotomy (i : ℕ) (j : ℕ) with h | h | h
    · exact h
    · exfalso
      have hij : i = j := Fin.ext h
      rw [hij, hj] at hi
      rw [hi] at hlt
      exact envLT_irrefl _ hlt
    · exfalso
      have hji : j < i := h
      have := List.Sorted.rel_get_of_lt hs (show j < i from hji)
      rw [hi, hj] at this
      exact envLT_asymm hlt this
  · rw [List.get?_eq_get i.isLt, hi]
  · rw [List.get?_eq_get j.isLt, hj]

/-- C6: commands enqueued by `put_command` dequeue in priority-queue order:
the counter from `itertools.count()` is strictly increasing, so among equal
priorities the enqueue order is preserved, `ConnectCommand` /
`DisconnectCommand` (enqueued at priority `-1` by `connect_table` /
`disconnect_table`) come out before every pending default-priority (`0`)
command, and each enqueued envelope is dequeued exactly once (in particular
at most once). -/
theorem command_queue_ordering (l : List (Int × ℕ)) :
    (∀ q c, connect_table q c = put_command q (-1) c ∧
      disconnect_table q c = put_command q (-1) c ∧
      put_default q c = put_command q 0 c) ∧
    List.Perm (drainAll (runPuts l).items) (runPuts l).items ∧
    (∀ e1 ∈ (runPuts l).items, ∀ e2 ∈ (runPuts l).items,
      e1.priority = e2.priority → e1.counter < e2.counter →
      ∃ i j, i < j ∧ (drainAll (runPuts l).items).get? i = some e1 ∧
        (drainAll (runPuts l).items).get? j = some e2) ∧
    (∀ e1 ∈ (runPuts l).items, ∀ e2 ∈ (runPuts l).items,
      e1.priority = -1 → e2.priority = 0 →
      ∃ i j, i < j ∧ (drainAll (runPuts l).items).get? i = some e1 ∧
        (drainAll (runPuts l).items).get? j = some e2) ∧
    (∀ e ∈ (runPuts l).items, (drainAll (runPuts l).items).count e = 1) := by
  have hnd := runPuts_nodup l
  have hsorted : (drainAll (runPuts l).items).Sorted envLT :=
    drainSteps_sorted _ _ le_rfl hnd
  have hperm := drainAll_perm (runPuts l).items
  refine ⟨fun q c => ⟨rfl, rfl, rfl⟩, hperm, ?_, ?_, ?_⟩
  · intro e1 h1 e2 h2 hp hc
    exact sorted_exists_indices hsorted (hperm.mem_iff.mpr h1) (hperm.mem_iff.mpr h2)
      (Or.inr ⟨hp, hc⟩)
  · intro e1 h1 e2 h2 hp1 hp2
    refine sorted_exists_indices hsorted (hperm.mem_iff.mpr h1) (hperm.mem_iff.mpr h2) ?_
    left
    rw [hp1, hp2]
    norm_num
  · intro e he
    rw [hperm.count_eq]
    exact List.count_eq_one_of_mem (hnd.of_map _) he

theorem command_queue_ordering_witness :
    (∃ i j, i < j ∧
      (drainAll (runPuts [(0, 10), (-1, 11), (0, 12)]).items).get? i =
        some ⟨0, 0, 10⟩ ∧
      (drainAll (runPuts [(0, 10), (-1, 11), (0, 12)]).items).get? j =
        some ⟨0, 2, 12⟩) ∧
    (∃ i j, i < j ∧
      (drainAll (runPuts [(0, 10), (-1, 11), (0, 12)]).items).get? i =
        some ⟨-1, 1, 11⟩ ∧
      (drainAll (runPuts [(0, 10), (-1, 11), (0, 12)]).items).get? j =
        some ⟨0, 0, 10⟩) ∧
    (drainAll (runPuts [(0, 10), (-1, 11), (0, 12)]).items).count ⟨-1, 1, 11⟩ = 1 :=
  ⟨(command_queue_ordering [(0, 10), (-1, 11), (0, 12)]).2.2.1
      ⟨0, 0, 10⟩ (by decide) ⟨0, 2, 12⟩ (by decide) rfl (by decide),
   (command_queue_ordering [(0, 10), (-1, 11), (0, 12)]).2.2.2.1
      ⟨-1, 1, 11⟩ (by decide) ⟨0, 0, 10⟩ (by decide) rfl rfl,
   (command_queue_ordering [(0, 10), (-1, 11), (0, 12)]).2.2.2.2
      ⟨-1, 1, 11⟩ (by decide)⟩

/-- C5 counterexample: after a successful open and close, a second
`__exit__` raises `AttributeError` (from `None.close()`) rather than
completing without error. -/
theorem resource_close_twice_counterexample :
    (resourceExit (resourceExit resourceEnter).1).2 = some PyExc.attributeError ∧
    (resourceExit (resourceExit resourceEnter).1).2 ≠ none := by decide

/-- C5 (amended): the first `__exit__` on an open resource closes it without
error and clears the session field; any further `__exit__` (the field now
`None`) raises `AttributeError` — close is not idempotent. -/
theorem resource_close_second_raises (s : ResourceState) (h : s.resource = none) :
    resourceExit resourceEnter = (⟨none⟩, none) ∧
    resourceExit s = (⟨none⟩, some .attributeError) := by
  refine ⟨rfl, ?_⟩
  simp [resourceExit, h]

theorem resource_close_second_raises_witness :
    resourceExit resourceEnter = (⟨none⟩, none) ∧
    resourceExit ⟨none⟩ = (⟨none⟩, some .attributeError) :=
  resource_close_second_raises ⟨none⟩ rfl

end TableControl
